import Mathlib

/-!
Verification of the MkDocs social-media hook (`src/hooks/socialmedia.py`).

The file embeds the two hook functions `on_page_content` and `on_post_page`
as pure Lean functions over `List Char` (a Python `str` is modelled as a
list of unicode characters).  Optional metadata fields (`page.title`,
`page.meta["description"]`, `config["site_url"]`, ...) are modelled as
`Option Str`; Python truthiness of a string is emptiness testing.
-/

set_option maxHeartbeats 1000000
set_option maxRecDepth 16384

abbrev Str := List Char

/-- Python truthiness of a string: non-empty. -/
def truthy (s : Str) : Bool := !s.isEmpty

/-- Python truthiness of an optional string (`None` and `""` are falsy). -/
def otruthy : Option Str → Bool
  | none => false
  | some s => truthy s

/-- Python `s.rstrip("/")`: remove all trailing `'/'` characters. -/
def rstripSlash (s : Str) : Str :=
  (s.reverse.dropWhile (fun c => c = '/')).reverse

/-- Python `s.lstrip("/")`: remove all leading `'/'` characters. -/
def lstripSlash (s : Str) : Str :=
  s.dropWhile (fun c => c = '/')

/-- The page object, restricted to the attributes the hooks read.
`src_uri` is `page.file.src_uri`; `url` is `page.url`; `title` is
`page.title` (`none` models Python `None`); `meta` models
`page.meta`: `none` when the attribute is missing or the mapping is
falsy (empty), `some d` when it is truthy, where `d` is the value of
the `"description"` key (`none` when the key is absent). -/
structure Page where
  src_uri : Str
  url : Str
  title : Option Str
  meta : Option (Option Str)

/-- The MkDocs configuration mapping, restricted to the keys the hooks
read; `none` models an absent key. -/
structure SiteConfig where
  site_url : Option Str
  site_name : Option Str
  site_description : Option Str

/-! ### Substring search and single replacement (Python `in` / `str.replace(old, new, 1)`) -/

/-- Index of the first occurrence of `pat` in `s`, if any. -/
def findSub (pat : Str) : Str → Option Nat
  | [] => if pat.isPrefixOf ([] : Str) then some 0 else none
  | c :: s => if pat.isPrefixOf (c :: s) then some 0 else (findSub pat s).map (· + 1)

/-- Python `pat in s`. -/
def containsSub (s pat : Str) : Bool := (findSub pat s).isSome

/-- Python `s.replace(old, new, 1)`: replace the first occurrence of `old`
(if any) with `new`. -/
def replaceOnce (s old new : Str) : Str :=
  match findSub old s with
  | none => s
  | some i => s.take i ++ new ++ s.drop (i + old.length)

/-! ### `urllib.parse.quote(s, safe="")` and its inverse -/

/-- The characters `quote` never escapes (`ALWAYS_SAFE` minus the `safe`
argument, which is empty here): ASCII letters, digits, `_.-~`. -/
def isUnreservedChar (c : Char) : Bool :=
  ('A' ≤ c && c ≤ 'Z') || ('a' ≤ c && c ≤ 'z') || ('0' ≤ c && c ≤ '9') ||
    c = '_' || c = '.' || c = '-' || c = '~'

/-- UTF-8 encoding of a single character, as byte values. -/
def utf8EncodeChar (c : Char) : List Nat :=
  let v := c.toNat
  if v < 0x80 then [v]
  else if v < 0x800 then [0xC0 + v / 64, 0x80 + v % 64]
  else if v < 0x10000 then [0xE0 + v / 4096, 0x80 + v / 64 % 64, 0x80 + v % 64]
  else [0xF0 + v / 262144, 0x80 + v / 4096 % 64, 0x80 + v / 64 % 64, 0x80 + v % 64]

/-- Upper-case hexadecimal digit for `n < 16`. -/
def hexDigit (n : Nat) : Char :=
  if n < 10 then Char.ofNat ('0'.toNat + n) else Char.ofNat ('A'.toNat + (n - 10))

/-- `%XX` escape of one byte. -/
def percentByte (b : Nat) : Str := ['%', hexDigit (b / 16), hexDigit (b % 16)]

/-- `quote` on a single character: kept if always-safe, otherwise every
UTF-8 byte is percent-escaped. -/
def quoteChar (c : Char) : Str :=
  if isUnreservedChar c then [c] else (utf8EncodeChar c).flatMap percentByte

/-- `urllib.parse.quote(s, safe="")`. -/
def quote (s : Str) : Str := s.flatMap quoteChar

/-- Value of a hexadecimal digit character. -/
def hexVal (c : Char) : Option Nat :=
  if '0' ≤ c ∧ c ≤ '9' then some (c.toNat - '0'.toNat)
  else if 'A' ≤ c ∧ c ≤ 'F' then some (10 + c.toNat - 'A'.toNat)
  else if 'a' ≤ c ∧ c ≤ 'f' then some (10 + c.toNat - 'a'.toNat)
  else none

/-- Percent-decoding to a byte sequence: a `%XX` escape yields the byte
`XX`; an unescaped ASCII character yields its code point. -/
def percentDecodeBytes : Str → Option (List Nat)
  | [] => some []
  | c :: rest =>
    if c = '%' then
      match rest with
      | h1 :: h2 :: rest2 => do
          let a ← hexVal h1
          let b ← hexVal h2
          let bs ← percentDecodeBytes rest2
          pure ((a * 16 + b) :: bs)
      | _ => none
    else if c.toNat < 0x80 then (percentDecodeBytes rest).map (c.toNat :: ·) else none

/-- UTF-8 decoding of a byte sequence. -/
def utf8Decode : List Nat → Option (List Char)
  | [] => some []
  | b :: bs =>
    if b < 0x80 then (utf8Decode bs).map (Char.ofNat b :: ·)
    else
      match bs with
      | [] => none
      | b2 :: bs2 =>
        if b < 0xC0 then none
        else if b < 0xE0 then
          if 0x80 ≤ b2 ∧ b2 < 0xC0 then
            (utf8Decode bs2).map (Char.ofNat ((b - 0xC0) * 64 + (b2 - 0x80)) :: ·)
          else none
        else
          match bs2 with
          | [] => none
          | b3 :: bs3 =>
            if b < 0xF0 then
              if (0x80 ≤ b2 ∧ b2 < 0xC0) ∧ (0x80 ≤ b3 ∧ b3 < 0xC0) then
                (utf8Decode bs3).map
                  (Char.ofNat ((b - 0xE0) * 4096 + (b2 - 0x80) * 64 + (b3 - 0x80)) :: ·)
              else none
            else
              match bs3 with
              | [] => none
              | b4 :: bs4 =>
                if (0x80 ≤ b2 ∧ b2 < 0xC0) ∧ (0x80 ≤ b3 ∧ b3 < 0xC0) ∧
                    (0x80 ≤ b4 ∧ b4 < 0xC0) then
                  (utf8Decode bs4).map
                    (Char.ofNat
                      ((b - 0xF0) * 262144 + (b2 - 0x80) * 4096 +
                        (b3 - 0x80) * 64 + (b4 - 0x80)) :: ·)
                else none

/-- The inverse of `quote`: percent-decode to bytes, then UTF-8-decode. -/
def unquote (s : Str) : Option Str :=
  (percentDecodeBytes s).bind utf8Decode

/-- RFC 3986 reserved characters (gen-delims and sub-delims). -/
def isReservedChar (c : Char) : Bool :=
  c ∈ [':', '/', '?', '#', '[', ']', '@', '!', '$', '&', '\x27',
       '(', ')', '*', '+', ',', ';', '=']

/-! ### `on_page_content` (ContentDecorator) -/

/-- Absolute page URL as computed by `on_page_content` (lines 36-37):
`f"{site_url}/{page.url.lstrip('/')}" if site_url else page.url` with
`site_url = config.get("site_url", "").rstrip("/")`. -/
def absUrlDecorate (cfg : SiteConfig) (pageUrl : Str) : Str :=
  let site_url := rstripSlash (cfg.site_url.getD [])
  if truthy site_url then site_url ++ '/' :: lstripSlash pageUrl else pageUrl

/-- `page.title or "Check out this post"` (line 40). -/
def decorateTitle (p : Page) : Str :=
  if otruthy p.title then p.title.getD [] else ("Check out this post".data)

/-- Description resolution of `on_page_content` (lines 41-45): meta
description when present and non-empty, else `site_description`, else
empty. -/
def decorateDescription (p : Page) (cfg : SiteConfig) : Str :=
  let d := match p.meta with
    | some m => m.getD []
    | none => []
  if truthy d then d else cfg.site_description.getD []

/-- `f"https://www.linkedin.com/sharing/share-offsite/?url={encoded_url}"`
(lines 54-56). -/
def linkedinShareUrl (encoded_url : Str) : Str :=
  ("https://www.linkedin.com/sharing/share-offsite/?url=".data) ++ encoded_url

/-- The share-button f-string literal up to (excluding) `<a href="`. -/
def sbPart1a : Str :=
  ("\n<div class=\"social-share-container\" style=\"margin-top: 2rem; padding: 1.5rem; border-top: 2px solid var(--md-default-fg-color--lightest); text-align: center;\">\n    <p style=\"margin-bottom: 1rem; color: var(--md-default-fg-color--light); font-size: 0.9rem;\">\n        <strong>Found this helpful? Share it on LinkedIn!</strong>\n    </p>\n    ".data)

/-- `<a href="`, the anchor opening of the share-button literal. -/
def sbAnchorOpen : Str := ("<a href=\"".data)

/-- The share-button f-string literal up to `<a href="`. -/
def sbPart1 : Str := sbPart1a ++ sbAnchorOpen

/-- The share-button f-string literal after the closing quote of the
interpolated share URL. -/
def sbPart2b : Str :=
  (" \n       target=\"_blank\" \n       rel=\"noopener noreferrer\"\n       class=\"linkedin-share-button\"\n       style=\"display: inline-flex; align-items: center; gap: 0.5rem; padding: 0.75rem 1.5rem; \n              background-color: #0A66C2; color: white; text-decoration: none; \n              border-radius: 4px; font-weight: 500; transition: background-color 0.3s ease;\n              box-shadow: 0 2px 4px rgba(0,0,0,0.1);\"\n       onmouseover=\"this.style.backgroundColor=\x27#004182\x27\"\n       onmouseout=\"this.style.backgroundColor=\x27#0A66C2\x27\">\n        <svg xmlns=\"http://www.w3.org/2000/svg\" width=\"20\" height=\"20\" viewBox=\"0 0 24 24\" fill=\"currentColor\">\n            <path d=\"M19 0h-14c-2.761 0-5 2.239-5 5v14c0 2.761 2.239 5 5 5h14c2.762 0 5-2.239 5-5v-14c0-2.761-2.238-5-5-5zm-11 19h-3v-11h3v11zm-1.5-12.268c-.966 0-1.75-.79-1.75-1.764s.784-1.764 1.75-1.764 1.75.79 1.75 1.764-.783 1.764-1.75 1.764zm13.5 12.268h-3v-5.604c0-3.368-4-3.113-4 0v5.604h-3v-11h3v1.765c1.396-2.586 7-2.777 7 2.476v6.759z\"/>\n        </svg>\n        Share on LinkedIn\n    </a>\n</div>\n\n<style>\n    .linkedin-share-button:hover \x7b\n        transform: translateY(-2px);\n        box-shadow: 0 4px 8px rgba(0,0,0,0.15);\n    \x7d\n    \n    @media (max-width: 768px) \x7b\n        .social-share-container \x7b\n            padding: 1rem;\n        \x7d\n        .linkedin-share-button \x7b\n            width: 100%;\n            justify-content: center;\n        \x7d\n    \x7d\n</style>\n".data)

/-- The share-button f-string literal after the interpolated share URL
(a double quote closing the `href` attribute, then the rest). -/
def sbPart2 : Str := '\"' :: sbPart2b

/-- The share-button fragment (lines 59-97) for a given share URL. -/
def shareButtonHtml (linkedin_share_url : Str) : Str :=
  sbPart1 ++ linkedin_share_url ++ sbPart2

/-- `on_page_content` (lines 16-104).  The `files` argument is unused by
the source and omitted.  `page_title` and `page_description` are computed
by the source but not interpolated into the fragment; they are exposed as
`decorateTitle` / `decorateDescription`. -/
def on_page_content (html : Str) (page : Page) (config : SiteConfig) : Str :=
  if ("posts/".data).isPrefixOf page.src_uri then
    let page_url := absUrlDecorate config page.url
    let encoded_url := quote page_url
    html ++ shareButtonHtml (linkedinShareUrl encoded_url)
  else html

/-! ### `on_post_page` (MetaTagInjector) -/

/-- Absolute page URL as computed by `on_post_page` (lines 124-125):
`f"{site_url}/{page.url}" if site_url else page.url` — note: no
`lstrip('/')` on `page.url`, unlike `absUrlDecorate`. -/
def absUrlInject (cfg : SiteConfig) (pageUrl : Str) : Str :=
  let site_url := rstripSlash (cfg.site_url.getD [])
  if truthy site_url then site_url ++ '/' :: pageUrl else pageUrl

/-- `page.title or config.get("site_name", "Blog Post")` (line 126). -/
def injectTitle (p : Page) (cfg : SiteConfig) : Str :=
  if otruthy p.title then p.title.getD [] else cfg.site_name.getD ("Blog Post".data)

/-- Description resolution of `on_post_page` (lines 127-131):
`config.get("site_description", "")`, overridden by
`page.meta.get("description", previous)` when `page.meta` is truthy. -/
def injectDescription (p : Page) (cfg : SiteConfig) : Str :=
  let d0 := cfg.site_description.getD []
  match p.meta with
  | some m => m.getD d0
  | none => d0

/-! The meta-tag f-string (lines 134-146) is transcribed as the
concatenation of its literal pieces around the five interpolation holes;
the pieces are further split at the complete fixed tags (`og:type`,
`twitter:card`) and at the attribute delimiters `<meta ... content="` and
`" />`, so concatenating `ogP1 ... ogP7` below reproduces the source
literal character for character. -/

/-- `" />`, the closing of a meta `content` attribute. -/
def ogClose : Str := ("\" />".data)

def ogComment1 : Str := ("\n    <!-- Open Graph / LinkedIn meta tags -->\n    ".data)

def ogTypeTag : Str := ("<meta property=\"og:type\" content=\"article\" />".data)

def ogOpenUrl : Str := ("<meta property=\"og:url\" content=\"".data)

def ogOpenTitle : Str := ("<meta property=\"og:title\" content=\"".data)

def ogOpenDescription : Str := ("<meta property=\"og:description\" content=\"".data)

def ogOpenSiteName : Str := ("<meta property=\"og:site_name\" content=\"".data)

def ogComment2 : Str :=
  ("\n    \n    <!-- Twitter Card meta tags (also used by LinkedIn) -->\n    ".data)

def twCardTag : Str := ("<meta name=\"twitter:card\" content=\"summary_large_image\" />".data)

def twOpenTitle : Str := ("<meta name=\"twitter:title\" content=\"".data)

def twOpenDescription : Str := ("<meta name=\"twitter:description\" content=\"".data)

def ogP1 : Str := ogComment1 ++ ogTypeTag ++ ("\n    ".data) ++ ogOpenUrl

def ogP2 : Str := ogClose ++ ("\n    ".data) ++ ogOpenTitle

def ogP3 : Str := ogClose ++ ("\n    ".data) ++ ogOpenDescription

def ogP4 : Str := ogClose ++ ("\n    ".data) ++ ogOpenSiteName

def ogP5 : Str := ogClose ++ ogComment2 ++ twCardTag ++ ("\n    ".data) ++ twOpenTitle

def ogP6 : Str := ogClose ++ ("\n    ".data) ++ twOpenDescription

def ogP7 : Str := ogClose ++ ("\n".data)

/-- The Open Graph / Twitter meta-tag block (lines 134-146). -/
def ogTags (page_url page_title page_description site_name : Str) : Str :=
  ogP1 ++ page_url ++ ogP2 ++ page_title ++ ogP3 ++ page_description ++
    ogP4 ++ site_name ++ ogP5 ++ page_title ++ ogP6 ++ page_description ++ ogP7

/-- The meta-tag block `on_post_page` builds for a post. -/
def ogTagsFor (page : Page) (config : SiteConfig) : Str :=
  ogTags (absUrlInject config page.url) (injectTitle page config)
    (injectDescription page config) (config.site_name.getD [])

/-- `on_post_page` (lines 107-153). -/
def on_post_page (output : Str) (page : Page) (config : SiteConfig) : Str :=
  if ("posts/".data).isPrefixOf page.src_uri then
    let og_tags := ogTagsFor page config
    if containsSub output ("<head>".data) then
      replaceOnce output ("<head>".data) (("<head>".data) ++ og_tags)
    else output
  else output

/-! ### Auxiliary definitions for the statements -/

/-- UTF-8 encoding of a whole string, as byte values. -/
def utf8Encode (s : Str) : List Nat := s.flatMap utf8EncodeChar

/-- The absolute-URL rule exactly as claim C4 words it: if `config.siteUrl`
is non-empty, the trailing-slash-stripped site URL, a single `'/'`, and
the leading-slash-stripped page URL; if `config.siteUrl` is empty or
absent, `page.url` unchanged. -/
def specAbsUrlC4 (siteUrl : Option Str) (pageUrl : Str) : Str :=
  if truthy (siteUrl.getD []) then
    rstripSlash (siteUrl.getD []) ++ '/' :: lstripSlash pageUrl
  else pageUrl

/-! ## Helper lemmas -/

theorem isPrefixOf_append_self (p b : Str) : p.isPrefixOf (p ++ b) = true := by
  induction p with
  | nil => simp [List.isPrefixOf]
  | cons c p ih => simp [List.isPrefixOf, ih]

theorem lstripSlash_head_ne (s : Str) : (lstripSlash s).head? ≠ some '/' := by
  induction s with
  | nil => simp [lstripSlash]
  | cons c s ih =>
    by_cases hc : c = '/'
    · simpa [lstripSlash, List.dropWhile, hc] using ih
    · simp [lstripSlash, List.dropWhile, hc]

/-! ## Claims -/

/-- **C1.** For every page whose path does not start with `"posts/"`, both
hooks are the identity on their HTML argument. -/
theorem C1_non_posts_identity (html fullOutput : Str) (p : Page) (cfg : SiteConfig)
    (h : ("posts/".data).isPrefixOf p.src_uri = false) :
    on_page_content html p cfg = html ∧ on_post_page fullOutput p cfg = fullOutput := by
  constructor <;> simp [on_page_content, on_post_page, h]

theorem C1_witness :
    ("posts/".data).isPrefixOf ("index.md".data) = false ∧
    on_page_content ("<p>x</p>".data) ⟨("index.md".data), ("/".data), none, none⟩
        ⟨none, none, none⟩ = ("<p>x</p>".data) ∧
    on_post_page ("<head></head>".data) ⟨("index.md".data), ("/".data), none, none⟩
        ⟨none, none, none⟩ = ("<head></head>".data) :=
  ⟨by decide,
    (C1_non_posts_identity ("<p>x</p>".data) ("<head></head>".data)
      ⟨("index.md".data), ("/".data), none, none⟩ ⟨none, none, none⟩ (by decide)).1,
    (C1_non_posts_identity ("<p>x</p>".data) ("<head></head>".data)
      ⟨("index.md".data), ("/".data), none, none⟩ ⟨none, none, none⟩ (by decide)).2⟩

/-- **C2.** For every post, `on_page_content` returns its input with the
share-button fragment appended at the end: the input is a prefix of the
output and the output is at least as long. -/
theorem C2_appends_fragment (html : Str) (p : Page) (cfg : SiteConfig)
    (h : ("posts/".data).isPrefixOf p.src_uri = true) :
    on_page_content html p cfg =
      html ++ shareButtonHtml (linkedinShareUrl (quote (absUrlDecorate cfg p.url))) ∧
    html <+: on_page_content html p cfg ∧
    html.length ≤ (on_page_content html p cfg).length := by
  have he : on_page_content html p cfg =
      html ++ shareButtonHtml (linkedinShareUrl (quote (absUrlDecorate cfg p.url))) := by
    simp [on_page_content, h]
  refine ⟨he, ?_, ?_⟩
  · rw [he]; exact List.prefix_append _ _
  · rw [he]; simp

theorem C2_witness :
    ("posts/".data).isPrefixOf ("posts/hello.md".data) = true ∧
    on_page_content ("<p>x</p>".data) ⟨("posts/hello.md".data), ("/posts/hello/".data), none, none⟩
        ⟨none, none, none⟩ =
      ("<p>x</p>".data) ++
        shareButtonHtml (linkedinShareUrl (quote (absUrlDecorate ⟨none, none, none⟩
          ("/posts/hello/".data)))) ∧
    ("<p>x</p>".data) <+:
      on_page_content ("<p>x</p>".data)
        ⟨("posts/hello.md".data), ("/posts/hello/".data), none, none⟩ ⟨none, none, none⟩ :=
  ⟨by decide, (C2_appends_fragment _ _ _ (by decide)).1,
    (C2_appends_fragment _ _ _ (by decide)).2.1⟩

/-- **C7.** `on_post_page` resolves the interpolated title to `page.title`
when truthy, else to `config["site_name"]` when that key is present, else
to the literal `"Blog Post"`; under the same missing-title input,
`on_page_content` resolves its (unused) display title to the literal
`"Check out this post"`. -/
theorem C7_title_fallbacks (p : Page) (cfg : SiteConfig) :
    (otruthy p.title = true →
      injectTitle p cfg = p.title.getD [] ∧ decorateTitle p = p.title.getD []) ∧
    (otruthy p.title = false →
      (∀ s, cfg.site_name = some s → injectTitle p cfg = s) ∧
      (cfg.site_name = none → injectTitle p cfg = ("Blog Post".data)) ∧
      decorateTitle p = ("Check out this post".data)) := by
  constructor
  · intro h; simp [injectTitle, decorateTitle, h]
  · intro h
    refine ⟨fun s hs => ?_, fun hn => ?_, ?_⟩ <;> simp [injectTitle, decorateTitle, h, *]

theorem C7_witness :
    injectTitle ⟨("posts/a.md".data), ("/a/".data), none, none⟩
        ⟨none, some ("My Blog".data), none⟩ = ("My Blog".data) ∧
    decorateTitle ⟨("posts/a.md".data), ("/a/".data), none, none⟩ =
      ("Check out this post".data) :=
  ⟨((C7_title_fallbacks ⟨("posts/a.md".data), ("/a/".data), none, none⟩
      ⟨none, some ("My Blog".data), none⟩).2 (by decide)).1 _ rfl,
    ((C7_title_fallbacks ⟨("posts/a.md".data), ("/a/".data), none, none⟩
      ⟨none, some ("My Blog".data), none⟩).2 (by decide)).2.2⟩

/-- **C9.** The output of `on_page_content` is independent of `page.title`
and of the resolved description inputs: two invocations agreeing on the
path, the page URL and the site URL produce identical output, whatever
the titles, meta descriptions and site descriptions are. -/
theorem C9_output_independent_of_title_description (html : Str) (p₁ p₂ : Page)
    (c₁ c₂ : SiteConfig) (hpath : p₁.src_uri = p₂.src_uri) (hurl : p₁.url = p₂.url)
    (hsite : c₁.site_url = c₂.site_url) :
    on_page_content html p₁ c₁ = on_page_content html p₂ c₂ := by
  simp only [on_page_content, absUrlDecorate, hpath, hurl, hsite]

theorem C9_witness :
    on_page_content ("<p>x</p>".data)
      ⟨("posts/a.md".data), ("/a/".data), some ("Title One".data), some (some ("D1".data))⟩
      ⟨some ("https://x".data), some ("N1".data), some ("SD1".data)⟩ =
    on_page_content ("<p>x</p>".data)
      ⟨("posts/a.md".data), ("/a/".data), none, none⟩
      ⟨some ("https://x".data), none, some ("SD2".data)⟩ :=
  C9_output_independent_of_title_description _ _ _ _ _ rfl rfl rfl

/-- **C10.** Both hooks are total functions: with every optional field
absent (and likewise with every field present but empty) each resolver
yields its documented fallback value and both hooks return a defined
string result. -/
theorem C10_totality_and_fallbacks (html url path : Str) :
    decorateTitle ⟨path, url, none, none⟩ = ("Check out this post".data) ∧
    decorateDescription ⟨path, url, none, none⟩ ⟨none, none, none⟩ = [] ∧
    injectTitle ⟨path, url, none, none⟩ ⟨none, none, none⟩ = ("Blog Post".data) ∧
    injectDescription ⟨path, url, none, none⟩ ⟨none, none, none⟩ = [] ∧
    absUrlDecorate ⟨none, none, none⟩ url = url ∧
    absUrlInject ⟨none, none, none⟩ url = url ∧
    decorateTitle ⟨path, url, some [], some (some [])⟩ = ("Check out this post".data) ∧
    injectTitle ⟨path, url, some [], some (some [])⟩ ⟨some [], some [], some []⟩ = [] ∧
    decorateDescription ⟨path, url, some [], some (some [])⟩ ⟨some [], some [], some []⟩ = [] ∧
    injectDescription ⟨path, url, some [], some (some [])⟩ ⟨some [], some [], some []⟩ = [] ∧
    on_page_content html ⟨path, url, none, none⟩ ⟨none, none, none⟩ =
      (if ("posts/".data).isPrefixOf path then
        html ++ shareButtonHtml (linkedinShareUrl (quote url))
       else html) ∧
    on_post_page html ⟨path, url, none, none⟩ ⟨none, none, none⟩ =
      (if ("posts/".data).isPrefixOf path then
        (if containsSub html ("<head>".data) then
          replaceOnce html ("<head>".data)
            (("<head>".data) ++ ogTags url ("Blog Post".data) [] [])
         else html)
       else html) := by
  refine ⟨rfl, rfl, rfl, rfl, rfl, rfl, rfl, rfl, rfl, rfl, rfl, rfl⟩

/-- **C4 counterexample.** The claim conditions the join on `config.siteUrl`
being non-empty, but the code conditions it on the *trailing-slash-stripped*
site URL being non-empty: for `config.siteUrl = "/"` (non-empty) and
`page.url = "hello/"` the code returns `page.url` unchanged while the
claim's rule produces `"/hello/"`. -/
theorem C4_counterexample :
    truthy ((some (['/']) : Option Str).getD []) = true ∧
    absUrlDecorate ⟨some (['/']), none, none⟩ ("hello/".data) = ("hello/".data) ∧
    specAbsUrlC4 (some (['/'])) ("hello/".data) = ("/hello/".data) ∧
    absUrlDecorate ⟨some (['/']), none, none⟩ ("hello/".data) ≠
      specAbsUrlC4 (some (['/'])) ("hello/".data) := by
  refine ⟨by decide, by decide, by decide, by decide⟩

/-- **C4 amended.** In `on_page_content`, if `config.siteUrl` stripped of
trailing `'/'` characters is non-empty, the absolute page URL is that
stripped value, a single `'/'`, and `page.url` stripped of leading `'/'`
characters; if the stripped site URL is empty (i.e. `config.siteUrl` is
absent, empty, or consists only of slashes), the absolute URL is
`page.url` unchanged.  For `config.siteUrl = "https://blog.example"` and
`page.url = "/posts/hello/"` the absolute URL is
`"https://blog.example/posts/hello/"` and the share link's query value is
its fully percent-encoded form. -/
theorem C4_absolute_url_decorate (cfg : SiteConfig) (url : Str) :
    (truthy (rstripSlash (cfg.site_url.getD [])) = true →
      absUrlDecorate cfg url =
        rstripSlash (cfg.site_url.getD []) ++ '/' :: lstripSlash url) ∧
    (truthy (rstripSlash (cfg.site_url.getD [])) = false → absUrlDecorate cfg url = url) ∧
    absUrlDecorate ⟨some ("https://blog.example".data), none, none⟩ ("/posts/hello/".data) =
      ("https://blog.example/posts/hello/".data) ∧
    quote (absUrlDecorate ⟨some ("https://blog.example".data), none, none⟩
        ("/posts/hello/".data)) =
      ("https%3A%2F%2Fblog.example%2Fposts%2Fhello%2F".data) ∧
    linkedinShareUrl (quote (absUrlDecorate ⟨some ("https://blog.example".data), none, none⟩
        ("/posts/hello/".data))) =
      ("https://www.linkedin.com/sharing/share-offsite/?url=https%3A%2F%2Fblog.example%2Fposts%2Fhello%2F".data) := by
  refine ⟨fun h => ?_, fun h => ?_, by decide, by decide, by decide⟩
  · simp [absUrlDecorate, h]
  · simp [absUrlDecorate, h]

theorem C4_witness :
    absUrlDecorate ⟨some ("https://blog.example".data), none, none⟩ ("/posts/hello/".data) =
      rstripSlash ((some ("https://blog.example".data) : Option Str).getD []) ++
        '/' :: lstripSlash ("/posts/hello/".data) ∧
    absUrlDecorate ⟨none, none, none⟩ ("/posts/hello/".data) = ("/posts/hello/".data) :=
  ⟨(C4_absolute_url_decorate ⟨some ("https://blog.example".data), none, none⟩
      ("/posts/hello/".data)).1 (by decide),
    (C4_absolute_url_decorate ⟨none, none, none⟩ ("/posts/hello/".data)).2.1 (by decide)⟩

/-- **C6.** With a non-empty stripped site URL, the two hooks build the
absolute URL differently: `on_post_page` concatenates the stripped site
URL, `'/'`, and `page.url` unmodified, while `on_page_content` first
strips the leading slashes of `page.url`; hence whenever `page.url`
begins with `'/'`, the URL `on_post_page` interpolates contains a double
slash at the join position where `on_page_content`'s URL does not. -/
theorem C6_url_asymmetry (cfg : SiteConfig) (url : Str)
    (h : truthy (rstripSlash (cfg.site_url.getD [])) = true) :
    absUrlInject cfg url = rstripSlash (cfg.site_url.getD []) ++ '/' :: url ∧
    absUrlDecorate cfg url =
      rstripSlash (cfg.site_url.getD []) ++ '/' :: lstripSlash url ∧
    (url.head? = some '/' →
      (['/', '/']).isPrefixOf
        ((absUrlInject cfg url).drop (rstripSlash (cfg.site_url.getD [])).length) = true ∧
      (['/', '/']).isPrefixOf
        ((absUrlDecorate cfg url).drop (rstripSlash (cfg.site_url.getD [])).length) = false) := by
  have hi : absUrlInject cfg url = rstripSlash (cfg.site_url.getD []) ++ '/' :: url := by
    simp [absUrlInject, h]
  have hd : absUrlDecorate cfg url =
      rstripSlash (cfg.site_url.getD []) ++ '/' :: lstripSlash url := by
    simp [absUrlDecorate, h]
  refine ⟨hi, hd, fun h0 => ⟨?_, ?_⟩⟩
  · rw [hi, List.drop_left]
    rcases url with _ | ⟨c, url⟩
    · simp at h0
    · simp only [List.head?] at h0
      injection h0 with h0
      subst h0
      simp [List.isPrefixOf]
  · rw [hd, List.drop_left]
    have hh := lstripSlash_head_ne url
    rcases hls : lstripSlash url with _ | ⟨c, t⟩
    · simp [List.isPrefixOf]
    · rw [hls] at hh
      simp only [List.head?] at hh
      have hc : c ≠ '/' := fun hc => hh (by rw [hc])
      simp [List.isPrefixOf]
      exact fun h' => hc h'.symm

theorem C6_witness :
    absUrlInject ⟨some ("https://x".data), none, none⟩ ("/p/".data) =
      rstripSlash ((some ("https://x".data) : Option Str).getD []) ++ '/' :: ("/p/".data) ∧
    (['/', '/']).isPrefixOf
      ((absUrlInject ⟨some ("https://x".data), none, none⟩ ("/p/".data)).drop
        (rstripSlash ((some ("https://x".data) : Option Str).getD [])).length) = true ∧
    (['/', '/']).isPrefixOf
      ((absUrlDecorate ⟨some ("https://x".data), none, none⟩ ("/p/".data)).drop
        (rstripSlash ((some ("https://x".data) : Option Str).getD [])).length) = false :=
  ⟨(C6_url_asymmetry ⟨some ("https://x".data), none, none⟩ ("/p/".data) (by decide)).1,
    ((C6_url_asymmetry ⟨some ("https://x".data), none, none⟩ ("/p/".data) (by decide)).2.2
      (by decide)).1,
    ((C6_url_asymmetry ⟨some ("https://x".data), none, none⟩ ("/p/".data) (by decide)).2.2
      (by decide)).2⟩

theorem isPrefixOf_length_le (p : Str) :
    ∀ l : Str, p.isPrefixOf l = true → p.length ≤ l.length := by
  induction p with
  | nil => intro l _; simp
  | cons c p ih =>
    intro l hp
    cases l with
    | nil => simp [List.isPrefixOf] at hp
    | cons d l =>
      simp only [List.isPrefixOf, Bool.and_eq_true] at hp
      simpa using ih l hp.2

theorem findSub_some_isPrefixOf (pat : Str) :
    ∀ (s : Str) (i : Nat), findSub pat s = some i → pat.isPrefixOf (s.drop i) = true := by
  intro s
  induction s with
  | nil =>
    intro i h
    by_cases hp : pat.isPrefixOf ([] : Str) = true
    · simp only [findSub, hp, if_true, Option.some.injEq] at h
      subst h; simpa using hp
    · simp only [findSub, hp, if_false] at h
      simp [Bool.not_eq_true] at hp
      simp [hp] at h
  | cons c s ih =>
    intro i h
    by_cases hp : pat.isPrefixOf (c :: s) = true
    · simp only [findSub, hp, if_true, Option.some.injEq] at h
      subst h; simpa using hp
    · rw [Bool.not_eq_true] at hp
      simp only [findSub, hp, Bool.false_eq_true, if_false, Option.map_eq_some'] at h
      obtain ⟨j, hj, rfl⟩ := h
      simpa using ih j hj

theorem findSub_some_min (pat : Str) :
    ∀ (s : Str) (i : Nat), findSub pat s = some i →
      ∀ j, j < i → pat.isPrefixOf (s.drop j) = false := by
  intro s
  induction s with
  | nil =>
    intro i h j hj
    by_cases hp : pat.isPrefixOf ([] : Str) = true
    · simp only [findSub, hp, if_true, Option.some.injEq] at h
      omega
    · rw [Bool.not_eq_true] at hp
      simp [findSub, hp] at h
  | cons c s ih =>
    intro i h j hj
    by_cases hp : pat.isPrefixOf (c :: s) = true
    · simp only [findSub, hp, if_true, Option.some.injEq] at h
      omega
    · rw [Bool.not_eq_true] at hp
      simp only [findSub, hp, Bool.false_eq_true, if_false, Option.map_eq_some'] at h
      obtain ⟨k, hk, rfl⟩ := h
      cases j with
      | zero => simpa using hp
      | succ j => simpa using ih k hk j (by omega)

theorem findSub_none_spec (pat : Str) :
    ∀ (s : Str), findSub pat s = none → ∀ j, pat.isPrefixOf (s.drop j) = false := by
  intro s
  induction s with
  | nil =>
    intro h j
    by_cases hp : pat.isPrefixOf ([] : Str) = true
    · simp [findSub, hp] at h
    · rw [Bool.not_eq_true] at hp
      simpa using hp
  | cons c s ih =>
    intro h j
    by_cases hp : pat.isPrefixOf (c :: s) = true
    · simp [findSub, hp] at h
    · rw [Bool.not_eq_true] at hp
      simp only [findSub, hp, Bool.false_eq_true, if_false, Option.map_eq_none'] at h
      cases j with
      | zero => simpa using hp
      | succ j => simpa using ih h j

theorem containsSub_of_split (s a pat b : Str) (h : s = a ++ (pat ++ b)) :
    containsSub s pat = true := by
  rcases hf : findSub pat s with _ | i
  · exfalso
    have hfalse := findSub_none_spec pat s hf a.length
    rw [h, List.drop_left, isPrefixOf_append_self] at hfalse
    simp at hfalse
  · simp [containsSub, hf]

theorem ogTags_length_pos (a b c d : Str) : 0 < (ogTags a b c d).length := by
  have h1 : 0 < ogP1.length := by decide
  simp only [ogTags, List.length_append]
  omega

/-- **C3.** For every post: if the literal `"<head>"` does not occur in
the output, `on_post_page` returns it unchanged (a silent no-op); if it
occurs first at index `i`, `on_post_page` inserts the meta-tag block
immediately after that occurrence and only there (no occurrence exists
before `i`), and the result is strictly longer than the input. -/
theorem C3_head_insertion (output : Str) (p : Page) (cfg : SiteConfig)
    (h : ("posts/".data).isPrefixOf p.src_uri = true) :
    (containsSub output ("<head>".data) = false → on_post_page output p cfg = output) ∧
    (∀ i, findSub ("<head>".data) output = some i →
      on_post_page output p cfg =
        output.take i ++ ("<head>".data) ++ ogTagsFor p cfg ++ output.drop (i + 6) ∧
      ("<head>".data).isPrefixOf (output.drop i) = true ∧
      (∀ j, j < i → ("<head>".data).isPrefixOf (output.drop j) = false) ∧
      output.length < (on_post_page output p cfg).length) := by
  constructor
  · intro hc
    simp [on_post_page, h, hc]
  · intro i hi
    have hc : containsSub output ("<head>".data) = true := by simp [containsSub, hi]
    have hlen6 : ("<head>".data).length = 6 := by decide
    have hrep : on_post_page output p cfg =
        output.take i ++ ("<head>".data) ++ ogTagsFor p cfg ++ output.drop (i + 6) := by
      simp only [on_post_page, h, if_true, hc, replaceOnce, hi, hlen6, List.append_assoc]
    have hpre := findSub_some_isPrefixOf ("<head>".data) output i hi
    have hmin := findSub_some_min ("<head>".data) output i hi
    have hle : ("<head>".data).length ≤ (output.drop i).length :=
      isPrefixOf_length_le _ _ hpre
    rw [hlen6, List.length_drop] at hle
    have hog := ogTags_length_pos (absUrlInject cfg p.url) (injectTitle p cfg)
      (injectDescription p cfg) (cfg.site_name.getD [])
    refine ⟨hrep, hpre, hmin, ?_⟩
    rw [hrep]
    have hogFor : 0 < (ogTagsFor p cfg).length := hog
    simp only [List.length_append, List.length_take, List.length_drop, hlen6]
    omega

theorem C3_witness :
    on_post_page ("<html></html>".data)
      ⟨("posts/a.md".data), ("/a/".data), none, none⟩ ⟨none, none, none⟩ =
      ("<html></html>".data) ∧
    findSub ("<head>".data) ("<html><head></head>".data) = some 6 ∧
    on_post_page ("<html><head></head>".data)
        ⟨("posts/a.md".data), ("/a/".data), none, none⟩ ⟨none, none, none⟩ =
      ("<html><head></head>".data).take 6 ++ ("<head>".data) ++
        ogTagsFor ⟨("posts/a.md".data), ("/a/".data), none, none⟩ ⟨none, none, none⟩ ++
        ("<html><head></head>".data).drop 12 ∧
    ("<html><head></head>".data).length <
      (on_post_page ("<html><head></head>".data)
        ⟨("posts/a.md".data), ("/a/".data), none, none⟩ ⟨none, none, none⟩).length :=
  ⟨(C3_head_insertion ("<html></html>".data)
      ⟨("posts/a.md".data), ("/a/".data), none, none⟩ ⟨none, none, none⟩ (by decide)).1
      (by decide),
    by decide,
    ((C3_head_insertion ("<html><head></head>".data)
      ⟨("posts/a.md".data), ("/a/".data), none, none⟩ ⟨none, none, none⟩ (by decide)).2 6
      (by decide)).1,
    ((C3_head_insertion ("<html><head></head>".data)
      ⟨("posts/a.md".data), ("/a/".data), none, none⟩ ⟨none, none, none⟩ (by decide)).2 6
      (by decide)).2.2.2⟩

/-- **C8.** The emitted markup follows the literal templates: the
share-button fragment contains an anchor whose `href` attribute value is
exactly `https://www.linkedin.com/sharing/share-offsite/?url=` followed by
the percent-encoded absolute URL, and the injected head block contains the
meta properties `og:type` (fixed `article`), `og:url`, `og:title`,
`og:description`, `og:site_name`, `twitter:card` (fixed
`summary_large_image`), `twitter:title` and `twitter:description`, each
with its interpolated value appearing verbatim (not HTML-escaped). -/
theorem C8_markup_templates (html : Str) (p : Page) (cfg : SiteConfig)
    (h : ("posts/".data).isPrefixOf p.src_uri = true) :
    containsSub (on_page_content html p cfg)
      (("<a href=\"".data) ++ linkedinShareUrl (quote (absUrlDecorate cfg p.url)) ++
        ['\"']) = true ∧
    ogTagsFor p cfg =
      ogTags (absUrlInject cfg p.url) (injectTitle p cfg) (injectDescription p cfg)
        (cfg.site_name.getD []) ∧
    (∀ u t d n : Str,
      containsSub (ogTags u t d n) ogTypeTag = true ∧
      containsSub (ogTags u t d n) (ogOpenUrl ++ u ++ ogClose) = true ∧
      containsSub (ogTags u t d n) (ogOpenTitle ++ t ++ ogClose) = true ∧
      containsSub (ogTags u t d n) (ogOpenDescription ++ d ++ ogClose) = true ∧
      containsSub (ogTags u t d n) (ogOpenSiteName ++ n ++ ogClose) = true ∧
      containsSub (ogTags u t d n) twCardTag = true ∧
      containsSub (ogTags u t d n) (twOpenTitle ++ t ++ ogClose) = true ∧
      containsSub (ogTags u t d n) (twOpenDescription ++ d ++ ogClose) = true) := by
  refine ⟨?_, rfl, ?_⟩
  · apply containsSub_of_split _ (html ++ sbPart1a)
      (("<a href=\"".data) ++ linkedinShareUrl (quote (absUrlDecorate cfg p.url)) ++ ['\"'])
      sbPart2b
    simp [on_page_content, h, shareButtonHtml, sbPart1, sbPart2, sbAnchorOpen,
      List.append_assoc]
  · intro u t d n
    refine ⟨?_, ?_, ?_, ?_, ?_, ?_, ?_, ?_⟩
    · apply containsSub_of_split _ ogComment1 ogTypeTag
        (("\n    ".data) ++ ogOpenUrl ++ u ++ ogP2 ++ t ++ ogP3 ++ d ++ ogP4 ++ n ++
          ogP5 ++ t ++ ogP6 ++ d ++ ogP7)
      simp [ogTags, ogP1, List.append_assoc]
    · apply containsSub_of_split _ (ogComment1 ++ ogTypeTag ++ ("\n    ".data))
        (ogOpenUrl ++ u ++ ogClose)
        (("\n    ".data) ++ ogOpenTitle ++ t ++ ogP3 ++ d ++ ogP4 ++ n ++ ogP5 ++ t ++
          ogP6 ++ d ++ ogP7)
      simp [ogTags, ogP1, ogP2, List.append_assoc]
    · apply containsSub_of_split _ (ogP1 ++ u ++ ogClose ++ ("\n    ".data))
        (ogOpenTitle ++ t ++ ogClose)
        (("\n    ".data) ++ ogOpenDescription ++ d ++ ogP4 ++ n ++ ogP5 ++ t ++ ogP6 ++
          d ++ ogP7)
      simp [ogTags, ogP2, ogP3, List.append_assoc]
    · apply containsSub_of_split _ (ogP1 ++ u ++ ogP2 ++ t ++ ogClose ++ ("\n    ".data))
        (ogOpenDescription ++ d ++ ogClose)
        (("\n    ".data) ++ ogOpenSiteName ++ n ++ ogP5 ++ t ++ ogP6 ++ d ++ ogP7)
      simp [ogTags, ogP3, ogP4, List.append_assoc]
    · apply containsSub_of_split _
        (ogP1 ++ u ++ ogP2 ++ t ++ ogP3 ++ d ++ ogClose ++ ("\n    ".data))
        (ogOpenSiteName ++ n ++ ogClose)
        (ogComment2 ++ twCardTag ++ ("\n    ".data) ++ twOpenTitle ++ t ++ ogP6 ++ d ++
          ogP7)
      simp [ogTags, ogP4, ogP5, List.append_assoc]
    · apply containsSub_of_split _
        (ogP1 ++ u ++ ogP2 ++ t ++ ogP3 ++ d ++ ogP4 ++ n ++ ogClose ++ ogComment2)
        twCardTag
        (("\n    ".data) ++ twOpenTitle ++ t ++ ogP6 ++ d ++ ogP7)
      simp [ogTags, ogP5, List.append_assoc]
    · apply containsSub_of_split _
        (ogP1 ++ u ++ ogP2 ++ t ++ ogP3 ++ d ++ ogP4 ++ n ++ ogClose ++ ogComment2 ++
          twCardTag ++ ("\n    ".data))
        (twOpenTitle ++ t ++ ogClose)
        (("\n    ".data) ++ twOpenDescription ++ d ++ ogP7)
      simp [ogTags, ogP5, ogP6, List.append_assoc]
    · apply containsSub_of_split _
        (ogP1 ++ u ++ ogP2 ++ t ++ ogP3 ++ d ++ ogP4 ++ n ++ ogP5 ++ t ++ ogClose ++
          ("\n    ".data))
        (twOpenDescription ++ d ++ ogClose)
        ("\n".data)
      simp [ogTags, ogP6, ogP7, List.append_assoc]

theorem C8_witness :
    containsSub
      (on_page_content ("<p>x</p>".data)
        ⟨("posts/hello.md".data), ("/posts/hello/".data), none, none⟩
        ⟨some ("https://blog.example".data), none, none⟩)
      (("<a href=\"".data) ++
        linkedinShareUrl (quote (absUrlDecorate
          ⟨some ("https://blog.example".data), none, none⟩ ("/posts/hello/".data))) ++
        ['\"']) = true ∧
    containsSub (ogTags ("u".data) ("<T>".data) ("d".data) ("n".data))
      (ogOpenTitle ++ ("<T>".data) ++ ogClose) = true :=
  ⟨(C8_markup_templates ("<p>x</p>".data)
      ⟨("posts/hello.md".data), ("/posts/hello/".data), none, none⟩
      ⟨some ("https://blog.example".data), none, none⟩ (by decide)).1,
    ((C8_markup_templates ("<p>x</p>".data)
      ⟨("posts/hello.md".data), ("/posts/hello/".data), none, none⟩
      ⟨some ("https://blog.example".data), none, none⟩ (by decide)).2.2
      ("u".data) ("<T>".data) ("d".data) ("n".data)).2.2.1⟩

theorem char_toNat_lt (c : Char) : c.toNat < 1114112 := by
  have h := c.valid
  rcases h with h | ⟨h1, h2⟩
  · exact Nat.lt_trans h (by decide)
  · exact h2

theorem utf8Decode_encodeChar (c : Char) (rest : List Nat) :
    utf8Decode (utf8EncodeChar c ++ rest) = (utf8Decode rest).map (c :: ·) := by
  have hv := char_toNat_lt c
  by_cases h1 : c.toNat < 0x80
  · have he : utf8EncodeChar c ++ rest = c.toNat :: rest := by
      simp [utf8EncodeChar, h1]
    rw [he, utf8Decode.eq_def]
    dsimp only
    rw [if_pos h1, Char.ofNat_toNat]
  · by_cases h2 : c.toNat < 0x800
    · have he : utf8EncodeChar c ++ rest =
          (0xC0 + c.toNat / 64) :: (0x80 + c.toNat % 64) :: rest := by
        simp [utf8EncodeChar, h1, h2]
      rw [he, utf8Decode.eq_def]
      dsimp only
      rw [if_neg (by omega), if_neg (by omega), if_pos (by omega), if_pos (by omega)]
      have harg : (0xC0 + c.toNat / 64 - 0xC0) * 64 + (0x80 + c.toNat % 64 - 0x80)
          = c.toNat := by omega
      rw [harg, Char.ofNat_toNat]
    · by_cases h3 : c.toNat < 0x10000
      · have he : utf8EncodeChar c ++ rest =
            (0xE0 + c.toNat / 4096) :: (0x80 + c.toNat / 64 % 64) ::
              (0x80 + c.toNat % 64) :: rest := by
          simp [utf8EncodeChar, h1, h2, h3]
        rw [he, utf8Decode.eq_def]
        dsimp only
        rw [if_neg (by omega), if_neg (by omega), if_neg (by omega), if_pos (by omega),
          if_pos (by omega)]
        have harg : (0xE0 + c.toNat / 4096 - 0xE0) * 4096 +
            (0x80 + c.toNat / 64 % 64 - 0x80) * 64 + (0x80 + c.toNat % 64 - 0x80)
            = c.toNat := by omega
        rw [harg, Char.ofNat_toNat]
      · have he : utf8EncodeChar c ++ rest =
            (0xF0 + c.toNat / 262144) :: (0x80 + c.toNat / 4096 % 64) ::
              (0x80 + c.toNat / 64 % 64) :: (0x80 + c.toNat % 64) :: rest := by
          simp [utf8EncodeChar, h1, h2, h3]
        rw [he, utf8Decode.eq_def]
        dsimp only
        rw [if_neg (by omega), if_neg (by omega), if_neg (by omega), if_neg (by omega),
          if_pos (by omega)]
        have harg : (0xF0 + c.toNat / 262144 - 0xF0) * 262144 +
            (0x80 + c.toNat / 4096 % 64 - 0x80) * 4096 +
            (0x80 + c.toNat / 64 % 64 - 0x80) * 64 + (0x80 + c.toNat % 64 - 0x80)
            = c.toNat := by omega
        rw [harg, Char.ofNat_toNat]

theorem utf8Decode_utf8Encode (s : Str) : utf8Decode (utf8Encode s) = some s := by
  induction s with
  | nil => rfl
  | cons c s ih =>
    have h : utf8Encode (c :: s) = utf8EncodeChar c ++ utf8Encode s := by
      simp [utf8Encode]
    rw [h, utf8Decode_encodeChar, ih, Option.map_some']

theorem utf8EncodeChar_lt_256 (c : Char) : ∀ b ∈ utf8EncodeChar c, b < 256 := by
  have hv := char_toNat_lt c
  intro b hb
  by_cases h1 : c.toNat < 0x80
  · simp [utf8EncodeChar, h1] at hb
    omega
  · by_cases h2 : c.toNat < 0x800
    · simp [utf8EncodeChar, h1, h2] at hb
      rcases hb with hb | hb <;> omega
    · by_cases h3 : c.toNat < 0x10000
      · simp [utf8EncodeChar, h1, h2, h3] at hb
        rcases hb with hb | hb | hb <;> omega
      · simp [utf8EncodeChar, h1, h2, h3] at hb
        rcases hb with hb | hb | hb | hb <;> omega

theorem hexVal_hexDigit (n : Nat) (h : n < 16) : hexVal (hexDigit n) = some n := by
  interval_cases n <;> decide

theorem percentDecodeBytes_percentByte (b : Nat) (hb : b < 256) (rest : Str) :
    percentDecodeBytes (percentByte b ++ rest) = (percentDecodeBytes rest).map (b :: ·) := by
  have h16a : b / 16 < 16 := by omega
  have h16b : b % 16 < 16 := by omega
  show percentDecodeBytes ('%' :: hexDigit (b / 16) :: hexDigit (b % 16) :: rest) = _
  rw [percentDecodeBytes.eq_def]
  dsimp only
  rw [if_pos rfl, hexVal_hexDigit _ h16a, hexVal_hexDigit _ h16b]
  have harg : b / 16 * 16 + b % 16 = b := by omega
  cases hpd : percentDecodeBytes rest with
  | none => simp [Option.bind]
  | some bs => simp [Option.bind, harg]

theorem percentDecodeBytes_flatMap (L : List Nat) (hL : ∀ b ∈ L, b < 256) (rest : Str) :
    percentDecodeBytes (L.flatMap percentByte ++ rest) =
      (percentDecodeBytes rest).map (L ++ ·) := by
  induction L with
  | nil =>
    simp only [List.flatMap_nil, List.nil_append]
    cases percentDecodeBytes rest <;> simp
  | cons b L ih =>
    have hb : b < 256 := hL b (by simp)
    have hL' : ∀ x ∈ L, x < 256 := fun x hx => hL x (by simp [hx])
    rw [List.flatMap_cons, List.append_assoc, percentDecodeBytes_percentByte b hb,
      ih hL']
    cases percentDecodeBytes rest <;> simp

theorem isUnreservedChar_ascii (c : Char) (h : isUnreservedChar c = true) :
    c.toNat < 128 ∧ c ≠ '%' := by
  simp only [isUnreservedChar, Bool.or_eq_true, Bool.and_eq_true, decide_eq_true_eq] at h
  rcases h with ((((((⟨ha, hb⟩ | ⟨ha, hb⟩) | ⟨ha, hb⟩) | he) | he) | he) | he)
  · have ha' : 65 ≤ c.toNat := ha
    have hb' : c.toNat ≤ 90 := hb
    exact ⟨by omega, fun heq => by subst heq; simp at ha'⟩
  · have ha' : 97 ≤ c.toNat := ha
    have hb' : c.toNat ≤ 122 := hb
    exact ⟨by omega, fun heq => by subst heq; simp at ha'⟩
  · have ha' : 48 ≤ c.toNat := ha
    have hb' : c.toNat ≤ 57 := hb
    exact ⟨by omega, fun heq => by subst heq; simp at ha'⟩
  all_goals subst he; exact ⟨by decide, by decide⟩

theorem percentDecodeBytes_quoteChar (c : Char) (rest : Str) :
    percentDecodeBytes (quoteChar c ++ rest) =
      (percentDecodeBytes rest).map (fun bs => utf8EncodeChar c ++ bs) := by
  by_cases hu : isUnreservedChar c = true
  · obtain ⟨hlt, hne⟩ := isUnreservedChar_ascii c hu
    have he : quoteChar c ++ rest = c :: rest := by simp [quoteChar, hu]
    rw [he, percentDecodeBytes.eq_def]
    dsimp only
    rw [if_neg hne, if_pos hlt]
    have hec : utf8EncodeChar c = [c.toNat] := by simp [utf8EncodeChar, hlt]
    cases percentDecodeBytes rest <;> simp [hec]
  · rw [Bool.not_eq_true] at hu
    have he : quoteChar c ++ rest = (utf8EncodeChar c).flatMap percentByte ++ rest := by
      simp [quoteChar, hu]
    rw [he, percentDecodeBytes_flatMap _ (utf8EncodeChar_lt_256 c)]

theorem percentDecodeBytes_quote (s : Str) :
    percentDecodeBytes (quote s) = some (utf8Encode s) := by
  induction s with
  | nil => rfl
  | cons c s ih =>
    have h : quote (c :: s) = quoteChar c ++ quote s := by simp [quote]
    rw [h, percentDecodeBytes_quoteChar, ih, Option.map_some']
    simp [utf8Encode]

theorem hexDigit_not_reserved (n : Nat) (h : n < 16) :
    isReservedChar (hexDigit n) = false ∧ hexDigit n ≠ ' ' := by
  interval_cases n <;> exact ⟨by decide, by decide⟩

theorem isUnreservedChar_not_reserved (c : Char) (h : isUnreservedChar c = true) :
    isReservedChar c = false ∧ c ≠ ' ' := by
  constructor
  · by_cases hr : isReservedChar c = true
    · exfalso
      simp only [isReservedChar, decide_eq_true_eq, List.mem_cons, List.not_mem_nil,
        or_false] at hr
      rcases hr with rfl | rfl | rfl | rfl | rfl | rfl | rfl | rfl | rfl | rfl | rfl |
        rfl | rfl | rfl | rfl | rfl | rfl | rfl <;> exact absurd h (by decide)
    · simpa using hr
  · intro heq
    subst heq
    exact absurd h (by decide)

theorem quote_chars_safe (s : Str) :
    ∀ x ∈ quote s, isReservedChar x = false ∧ x ≠ ' ' := by
  intro x hx
  simp only [quote, List.mem_flatMap] at hx
  obtain ⟨c, _, hxc⟩ := hx
  by_cases hu : isUnreservedChar c = true
  · simp only [quoteChar, hu, if_true, List.mem_singleton] at hxc
    subst hxc
    exact isUnreservedChar_not_reserved _ hu
  · rw [Bool.not_eq_true] at hu
    simp only [quoteChar, hu, Bool.false_eq_true, if_false, List.mem_flatMap] at hxc
    obtain ⟨b, hbmem, hxb⟩ := hxc
    have hb : b < 256 := utf8EncodeChar_lt_256 c b hbmem
    simp only [percentByte, List.mem_cons, List.not_mem_nil, or_false] at hxb
    rcases hxb with rfl | rfl | rfl
    · exact ⟨by decide, by decide⟩
    · exact hexDigit_not_reserved (b / 16) (by omega)
    · exact hexDigit_not_reserved (b % 16) (by omega)

/-- **C5.** `quote` escapes every RFC 3986 reserved character and the
space: no character of the encoded output is reserved (in particular no
raw `/`, `?`, `=`) and none is a space; and `unquote`, the inverse
percent-decoding function, reproduces the original string exactly. -/
theorem C5_percent_encoding_roundtrip (s : Str) :
    (∀ x ∈ quote s, isReservedChar x = false ∧ x ≠ ' ') ∧
    unquote (quote s) = some s := by
  refine ⟨quote_chars_safe s, ?_⟩
  rw [unquote, percentDecodeBytes_quote]
  exact utf8Decode_utf8Encode s

theorem C5_witness :
    isReservedChar '/' = true ∧
    (('/' : Char) ∈ quote ("https://x.com/posts/a b?c=d".data) → False) ∧
    unquote (quote ("https://x.com/posts/a b?c=d".data)) =
      some ("https://x.com/posts/a b?c=d".data) :=
  ⟨by decide,
    fun hmem => absurd
      ((C5_percent_encoding_roundtrip ("https://x.com/posts/a b?c=d".data)).1 '/' hmem).1
      (by decide),
    (C5_percent_encoding_roundtrip ("https://x.com/posts/a b?c=d".data)).2⟩

/-- **C6 counterexample.** The claim's double-slash consequence is scoped
to "non-empty `config.siteUrl`", but the code branches on the
*trailing-slash-stripped* site URL: for `config.siteUrl = "/"` (non-empty)
and `page.url = "/p/"` both hooks fall into the falsy branch and return
`page.url` unchanged, so the two URLs are identical, `on_post_page`'s URL
is not the claimed `stripped ++ "/" ++ page.url`, and it contains no
double slash at all. -/
theorem C6_counterexample :
    truthy ((some (['/']) : Option Str).getD []) = true ∧
    absUrlInject ⟨some (['/']), none, none⟩ ("/p/".data) = ("/p/".data) ∧
    absUrlDecorate ⟨some (['/']), none, none⟩ ("/p/".data) = ("/p/".data) ∧
    absUrlInject ⟨some (['/']), none, none⟩ ("/p/".data) =
      absUrlDecorate ⟨some (['/']), none, none⟩ ("/p/".data) ∧
    absUrlInject ⟨some (['/']), none, none⟩ ("/p/".data) ≠
      rstripSlash ((some (['/']) : Option Str).getD []) ++ '/' :: ("/p/".data) ∧
    containsSub (absUrlInject ⟨some (['/']), none, none⟩ ("/p/".data)) (['/', '/']) =
      false := by
  refine ⟨by decide, by decide, by decide, by decide, by decide, by decide⟩
